import Mathlib

/-!
Verification of the boxed control plane (github.com/akshayaggarwal99/boxed)
against its natural-language specification.

The Go sources are shallowly embedded: pure fragments become Lean functions,
the Docker backend becomes an explicit container table threaded through the
lifecycle operations, machine integers become `Int`/`Nat`, `float64` values
that the code compares and narrows become `ℚ`, and fallible code returns
`Except`/`Option`.
-/

namespace Boxed

/-- Canonical driver error kinds (internal/driver, `var ( ErrSandboxNotFound = ... )`).
`invalidConfig msg` models `fmt.Errorf("%w: ...", ErrInvalidConfig)`. -/
inductive DriverErr where
  | sandboxNotFound
  | sandboxAlreadyRunning
  | sandboxNotRunning
  | connectionFailed
  | resourceExhausted
  | timeoutErr
  | invalidConfig (msg : String)
  | backend (msg : String)
deriving DecidableEq, Repr

/-- internal/driver `NetworkPolicy`. -/
structure NetworkPolicy where
  EnableInternet : Bool := false
  AllowDomains : List String := []
deriving DecidableEq, Repr

/-- internal/driver `FileInjection`: a file to be written to the sandbox at boot. -/
structure FileInjection where
  Path : String
  ContentBase64 : String
deriving DecidableEq, Repr

/-- Go `time.Duration` is an `int64` count of nanoseconds; `time.Second = 1e9`. -/
def timeSecond : Int := 1000000000

/-- `time.Minute = 60 * time.Second`. -/
def timeMinute : Int := 60 * timeSecond

/-- internal/driver `SandboxConfig`.  `MemoryMB` is an `int64`, `CPUCores` a
`float64` (embedded as `ℚ`: every comparison and constant the code uses is
exactly representable), `Timeout` a `time.Duration` in nanoseconds.  Go maps
become association lists.  Zero values mirror Go's. -/
structure SandboxConfig where
  Image : String := ""
  MemoryMB : Int := 0
  CPUCores : ℚ := 0
  Env : List (String × String) := []
  Timeout : Int := 0
  EnableNetworking : Bool := false
  AllowedHosts : List String := []
  WorkDir : String := ""
  Labels : List (String × String) := []
  NetworkPolicy : Boxed.NetworkPolicy := {}
  Context : List FileInjection := []
deriving DecidableEq, Repr

/-- internal/driver `SandboxConfig.Validate`: checks the image, applies
defaults to unset (`<= 0` / empty) fields in place, then rejects
out-of-range caps.  The Go method mutates the receiver and returns `error`;
here the updated config is returned in `Except`. -/
def SandboxConfig.Validate (c0 : SandboxConfig) : Except DriverErr SandboxConfig :=
  if c0.Image = "" then .error (.invalidConfig "image is required")
  else
    let c1 := if c0.MemoryMB ≤ 0 then { c0 with MemoryMB := 512 } else c0
    let c2 := if c1.CPUCores ≤ 0 then { c1 with CPUCores := 1 } else c1
    let c3 := if c2.Timeout ≤ 0 then { c2 with Timeout := 5 * timeMinute } else c2
    let c := if c3.WorkDir = "" then { c3 with WorkDir := "/workspace" } else c3
    if c.MemoryMB > 8192 then .error (.invalidConfig "memory cannot exceed 8GB")
    else if c.CPUCores > 4 then .error (.invalidConfig "CPU cannot exceed 4 cores")
    else if c.Timeout > 30 * timeMinute then .error (.invalidConfig "timeout cannot exceed 30 minutes")
    else .ok c

/-- State of one Docker container, as far as the driver inspects it
(`info.State.Running` in `Connect`, `c.State == "running"` in `List`). -/
structure ContainerState where
  Running : Bool := false
deriving DecidableEq, Repr

/-- The Docker engine's view for lifecycle modelling: existing containers by ID. -/
abbrev ContainerTable := List (String × ContainerState)

/-- `ContainerInspect`-style lookup of a container by ID. -/
def lookupContainer (t : ContainerTable) (id : String) : Option ContainerState :=
  (t.find? (fun e => e.1 = id)).map (fun e => e.2)

/-- internal/driver/docker `DockerDriver.Stop`: force-remove the container;
a NotFound engine error maps to `ErrSandboxNotFound`, anything else is
wrapped and propagated.  Removal deletes the entry from the engine state. -/
def DockerDriver.Stop (t : ContainerTable) (id : String) :
    Except DriverErr Unit × ContainerTable :=
  match lookupContainer t id with
  | some _ => (.ok (), t.filter (fun e => ¬ (e.1 = id)))
  | none => (.error .sandboxNotFound, t)

/-- internal/api `Handler.stopSandbox`: empty id ⇒ 400; `ErrSandboxNotFound`
⇒ 404; other errors ⇒ 500; success ⇒ 204 No Content. -/
def Handler.stopSandbox (t : ContainerTable) (id : String) : Nat × ContainerTable :=
  if id = "" then (400, t)
  else
    match DockerDriver.Stop t id with
    | (.ok _, t2) => (204, t2)
    | (.error .sandboxNotFound, t2) => (404, t2)
    | (.error _, t2) => (500, t2)

/-- internal/driver/docker `DockerDriver.Connect`: inspect the container
(missing ⇒ `ErrSandboxNotFound`), reject a non-running container with
`ErrSandboxNotRunning`, otherwise exec the agent binary and wrap the hijacked
connection (the stream itself is modelled elsewhere; success is `Unit`). -/
def DockerDriver.Connect (t : ContainerTable) (id : String) : Except DriverErr Unit :=
  match lookupContainer t id with
  | none => .error .sandboxNotFound
  | some info => if ¬ info.Running then .error .sandboxNotRunning else .ok ()

end Boxed

namespace Boxed

/-- find? over a filter that removed every match yields nothing. -/
theorem lookupContainer_filter_ne (t : ContainerTable) (id : String) :
    lookupContainer (t.filter (fun e => ¬ (e.1 = id))) id = none := by
  simp [lookupContainer, List.find?_eq_none, List.mem_filter]

/-- Filling of unset config fields as one simultaneous update (proof helper:
the sequential in-place updates of `Validate` never read a field they have
already written, so they coincide with this). -/
def fillDefaults (c : SandboxConfig) : SandboxConfig :=
  { c with
    MemoryMB := if c.MemoryMB ≤ 0 then 512 else c.MemoryMB
    CPUCores := if c.CPUCores ≤ 0 then 1 else c.CPUCores
    Timeout := if c.Timeout ≤ 0 then 5 * timeMinute else c.Timeout
    WorkDir := if c.WorkDir = "" then "/workspace" else c.WorkDir }

/-- `Validate` factored through `fillDefaults`. -/
theorem Validate_eq (c : SandboxConfig) :
    c.Validate =
      if c.Image = "" then .error (.invalidConfig "image is required")
      else if (fillDefaults c).MemoryMB > 8192 then
        .error (.invalidConfig "memory cannot exceed 8GB")
      else if (fillDefaults c).CPUCores > 4 then
        .error (.invalidConfig "CPU cannot exceed 4 cores")
      else if (fillDefaults c).Timeout > 30 * timeMinute then
        .error (.invalidConfig "timeout cannot exceed 30 minutes")
      else .ok (fillDefaults c) := by
  by_cases h1 : c.MemoryMB ≤ 0 <;> by_cases h2 : c.CPUCores ≤ 0 <;>
    by_cases h3 : c.Timeout ≤ 0 <;> by_cases h4 : c.WorkDir = "" <;>
    simp [SandboxConfig.Validate, fillDefaults, h1, h2, h3, h4]

/-- C2: for every config with a non-empty image, `Validate` rejects with an
InvalidConfig error whenever memory > 8192 MiB, CPU > 4.0 cores, or the
timeout > 30 minutes; it is the identity on configs already carrying exactly
the default values; and on success each unset field has been filled with its
default (512 MiB, 1.0 cores, 5 minutes, "/workspace") while set fields are
kept. -/
theorem C2_validate (c : SandboxConfig) (himg : ¬ c.Image = "") :
    ((8192 < c.MemoryMB ∨ 4 < c.CPUCores ∨ 30 * timeMinute < c.Timeout) →
        ∃ msg, c.Validate = .error (.invalidConfig msg)) ∧
    (c.MemoryMB = 512 → c.CPUCores = 1 → c.Timeout = 5 * timeMinute →
        c.WorkDir = "/workspace" → c.Validate = .ok c) ∧
    (∀ out, c.Validate = .ok out →
        out.Image = c.Image ∧
        out.MemoryMB = (if c.MemoryMB ≤ 0 then 512 else c.MemoryMB) ∧
        out.CPUCores = (if c.CPUCores ≤ 0 then 1 else c.CPUCores) ∧
        out.Timeout = (if c.Timeout ≤ 0 then 5 * timeMinute else c.Timeout) ∧
        out.WorkDir = (if c.WorkDir = "" then "/workspace" else c.WorkDir)) := by
  rw [Validate_eq]
  simp only [if_neg himg]
  refine ⟨fun hover => ?_, fun hM hC hT hW => ?_, fun out hout => ?_⟩
  · split_ifs with hm hc ht
    · exact ⟨_, rfl⟩
    · exact ⟨_, rfl⟩
    · exact ⟨_, rfl⟩
    · exfalso
      rcases hover with h | h | h
      · exact hm (by simp only [fillDefaults]; rw [if_neg (by omega)]; omega)
      · exact hc (by simp only [fillDefaults]; rw [if_neg (by intro hle; linarith)]; exact h)
      · refine ht ?_
        simp only [fillDefaults]
        rw [if_neg (by simp only [timeMinute, timeSecond] at h ⊢; omega)]
        exact h
  · have hfill : fillDefaults c = c := by
      rcases c with ⟨img, mem, cpu, env, tmo, net, hosts, wd, labels, np, ctx⟩
      simp only at hM hC hT hW
      subst hM hC hT hW
      simp [fillDefaults, timeMinute, timeSecond]
    rw [hfill, hM, hC, hT]
    norm_num [timeMinute, timeSecond]
  · split_ifs at hout with hm hc ht
    cases hout
    exact ⟨rfl, rfl, rfl, rfl, rfl⟩

/-- C2 witness: the fully-default config (with the default image) validates
to itself. -/
theorem C2_validate_witness :
    SandboxConfig.Validate
        { Image := "python:3.10-slim", MemoryMB := 512, CPUCores := 1,
          Timeout := 5 * timeMinute, WorkDir := "/workspace" } =
      .ok { Image := "python:3.10-slim", MemoryMB := 512, CPUCores := 1,
            Timeout := 5 * timeMinute, WorkDir := "/workspace" } :=
  (C2_validate _ (by decide)).2.1 rfl rfl rfl rfl

/-- C3 counterexample: on an engine holding exactly one container "c1", the
first `Stop "c1"` succeeds, but the second returns `ErrSandboxNotFound` — a
failure, not success — refuting "Stop twice returns success both times". -/
theorem C3_counterexample :
    (DockerDriver.Stop [("c1", { Running := true })] "c1").1 = .ok () ∧
    (DockerDriver.Stop (DockerDriver.Stop [("c1", { Running := true })] "c1").2 "c1").1 =
      .error .sandboxNotFound :=
  ⟨rfl, rfl⟩

/-- C3 amended: the first `Stop` on an existing sandbox succeeds (HTTP 204)
and removes it; the second returns `ErrSandboxNotFound`, which the HTTP
layer maps to 404 — stop on a missing sandbox is an error, not success. -/
theorem C3_stop_twice (t : ContainerTable) (id : String) (st : ContainerState)
    (h : lookupContainer t id = some st) (hid : ¬ id = "") :
    (Handler.stopSandbox t id).1 = 204 ∧
    (Handler.stopSandbox (Handler.stopSandbox t id).2 id).1 = 404 := by
  have h2 := lookupContainer_filter_ne t id
  simp only [Handler.stopSandbox, DockerDriver.Stop, h, if_neg hid]
  rw [h2]
  exact ⟨trivial, rfl⟩

/-- C3 amended-claim witness at a concrete engine state. -/
theorem C3_stop_twice_witness :
    (Handler.stopSandbox [("c1", { Running := true })] "c1").1 = 204 ∧
    (Handler.stopSandbox (Handler.stopSandbox [("c1", { Running := true })] "c1").2 "c1").1 =
      404 :=
  C3_stop_twice [("c1", { Running := true })] "c1" { Running := true } rfl (by decide)

/-- C4 counterexample: `Connect` on a sandbox that does not exist fails with
`ErrSandboxNotFound`, not `ErrSandboxNotRunning` as the claim states. -/
theorem C4_counterexample :
    DockerDriver.Connect [] "missing" = .error .sandboxNotFound ∧
    ¬ DockerDriver.Connect [] "missing" = .error .sandboxNotRunning := by
  refine ⟨rfl, fun h => ?_⟩
  rw [show DockerDriver.Connect [] "missing" = .error .sandboxNotFound from rfl] at h
  injection h with h2
  cases h2

/-- C4 amended: `Connect` on a nonexistent sandbox fails with
`ErrSandboxNotFound`; on an existing container that is not running it fails
with `ErrSandboxNotRunning`; it succeeds exactly on a running container. -/
theorem C4_connect (t : ContainerTable) (id : String) :
    (lookupContainer t id = none → DockerDriver.Connect t id = .error .sandboxNotFound) ∧
    (∀ st, lookupContainer t id = some st → st.Running = false →
        DockerDriver.Connect t id = .error .sandboxNotRunning) ∧
    (∀ st, lookupContainer t id = some st → st.Running = true →
        DockerDriver.Connect t id = .ok ()) := by
  refine ⟨fun h => ?_, fun st h hr => ?_, fun st h hr => ?_⟩
  · simp [DockerDriver.Connect, h]
  · simp [DockerDriver.Connect, h, hr]
  · simp [DockerDriver.Connect, h, hr]

/-- C4 amended-claim witness: a stopped container yields `ErrSandboxNotRunning`. -/
theorem C4_connect_witness :
    DockerDriver.Connect [("c1", { Running := false })] "c1" = .error .sandboxNotRunning :=
  (C4_connect [("c1", { Running := false })] "c1").2.1 { Running := false } rfl rfl

/-- internal/api `CreateSandboxRequest` (the JSON body of POST /v1/sandbox).
`Timeout` is the `int` timeout in seconds. -/
structure CreateSandboxRequest where
  Template : String := ""
  Timeout : Int := 0
  Metadata : List (String × String) := []
  NetworkPolicy : Boxed.NetworkPolicy := {}
  Context : List FileInjection := []
deriving DecidableEq, Repr

/-- handler.go createSandbox (109-120): template-to-image mapping.  The
default image is used unless the template is the known friendly name or
contains a `:` (then it is taken as a concrete image reference). -/
def resolveImage (template : String) : String :=
  if template = "python-data-science" then "boxed-python:3.9"
  else if template ≠ "" ∧ template.contains ':' then template
  else "python:3.10-slim"

/-- handler.go createSandbox (122-133): assembly of the driver config from
the request.  Fields the handler does not set (notably `EnableNetworking`,
`WorkDir`, `Env`) keep their Go zero values. -/
def createSandboxConfig (req : CreateSandboxRequest) : SandboxConfig :=
  let cfg : SandboxConfig :=
    { Image := resolveImage req.Template, MemoryMB := 512, CPUCores := 1,
      Labels := req.Metadata, Timeout := req.Timeout * timeSecond,
      NetworkPolicy := req.NetworkPolicy, Context := req.Context }
  if cfg.Timeout = 0 then { cfg with Timeout := 5 * timeMinute } else cfg

/-- docker.go Create (149-152): the container HostConfig network mode is set
to "none" unless `cfg.EnableNetworking`; otherwise it keeps the engine's
default (Go zero value ""). -/
def containerNetworkMode (cfg : SandboxConfig) : String :=
  if ¬ cfg.EnableNetworking then "none" else ""

/-- `Validate` never touches `EnableNetworking`. -/
theorem Validate_EnableNetworking (c : SandboxConfig) (out : SandboxConfig)
    (h : c.Validate = .ok out) : out.EnableNetworking = c.EnableNetworking := by
  rw [Validate_eq] at h
  split_ifs at h
  cases h
  rfl

/-- C9: every POST /v1/sandbox request yields a driver config whose container
network mode is "none" — the HTTP layer never sets `EnableNetworking` — both
as assembled and after `Validate`; two requests that differ only in
`network_policy` produce the same container network mode. -/
theorem C9_network_none :
    (∀ req : CreateSandboxRequest, containerNetworkMode (createSandboxConfig req) = "none") ∧
    (∀ req out, (createSandboxConfig req).Validate = .ok out →
        containerNetworkMode out = "none") ∧
    (∀ tmpl tmo meta np1 np2 ctx,
        containerNetworkMode (createSandboxConfig ⟨tmpl, tmo, meta, np1, ctx⟩) =
          containerNetworkMode (createSandboxConfig ⟨tmpl, tmo, meta, np2, ctx⟩)) := by
  have hreq : ∀ req : CreateSandboxRequest,
      (createSandboxConfig req).EnableNetworking = false := by
    intro req
    unfold createSandboxConfig
    dsimp only
    split <;> rfl
  refine ⟨fun req => ?_, fun req out h => ?_, fun tmpl tmo meta np1 np2 ctx => ?_⟩
  · simp [containerNetworkMode, hreq req]
  · have := Validate_EnableNetworking _ _ h
    rw [hreq req] at this
    simp [containerNetworkMode, this]
  · simp [containerNetworkMode, hreq]

/-- C9 witness: a concrete request (with a network policy asking for
internet) still validates to a config whose container network mode is
"none". -/
theorem C9_network_none_witness :
    containerNetworkMode
        { Image := "boxed-python:3.9", MemoryMB := 512, CPUCores := 1,
          Timeout := 5 * timeMinute, WorkDir := "/workspace",
          NetworkPolicy := { EnableInternet := true } } = "none" :=
  C9_network_none.2.1
    { Template := "python-data-science", Timeout := 300,
      NetworkPolicy := { EnableInternet := true } } _
    (by rfl)

/-- handler.go execSandbox (176-188): the language dispatch switch.  Known
languages map to a command plus a single `-c`/`-e` argument carrying the
code; anything else falls to the default case. -/
def languageCommand (language code : String) : Option (String × List String) :=
  match language with
  | "python" => some ("python3", ["-c", code])
  | "javascript" => some ("node", ["-e", code])
  | "node" => some ("node", ["-e", code])
  | "bash" => some ("bash", ["-c", code])
  | "sh" => some ("bash", ["-c", code])
  | _ => none

/-- Engine API calls `Connect` performs: inspect, then (only on a running
container) exec-create and exec-attach (docker.go 270-324). -/
def DockerDriver.ConnectCalls (t : ContainerTable) (id : String) : List String :=
  match lookupContainer t id with
  | none => ["ContainerInspect"]
  | some info =>
      if ¬ info.Running then ["ContainerInspect"]
      else ["ContainerInspect", "ContainerExecCreate", "ContainerExecAttach"]

/-- Outcome of the exec handler up to the point the exec RPC is written. -/
inductive ExecStart where
  | httpError (status : Nat) (msg : String)
  | rpcExec (cmd : String) (args : List String)
deriving DecidableEq, Repr

/-- handler.go execSandbox (165-209) up to sending the exec request: the
language switch runs first and an unknown language returns 400 with no
engine call; otherwise the handler Connects (404 when the sandbox is
missing, 500 on another failure) and sends `exec {cmd, args}`.  The second
component lists the engine API calls made. -/
def Handler.execSandbox (t : ContainerTable) (id language code : String) :
    ExecStart × List String :=
  match languageCommand language code with
  | none => (.httpError 400 ("unsupported language: " ++ language), [])
  | some (cmd, args) =>
      match DockerDriver.Connect t id with
      | .error .sandboxNotFound =>
          (.httpError 404 "sandbox not found", DockerDriver.ConnectCalls t id)
      | .error _ =>
          (.httpError 500 "failed to connect to sandbox", DockerDriver.ConnectCalls t id)
      | .ok _ => (.rpcExec cmd args, DockerDriver.ConnectCalls t id)

/-- C7: an exec request with an unknown language returns HTTP 400 with no
engine call made (the sandbox is untouched); each known language passes the
code as the single `-c`/`-e` argument of the mapped command. -/
theorem C7_exec_language (t : ContainerTable) (id code : String) :
    (∀ language, ¬ language ∈ ["python", "javascript", "node", "bash", "sh"] →
        Handler.execSandbox t id language code =
          (.httpError 400 ("unsupported language: " ++ language), [])) ∧
    (∀ st, lookupContainer t id = some st → st.Running = true →
        (Handler.execSandbox t id "python" code).1 = .rpcExec "python3" ["-c", code] ∧
        (Handler.execSandbox t id "javascript" code).1 = .rpcExec "node" ["-e", code] ∧
        (Handler.execSandbox t id "node" code).1 = .rpcExec "node" ["-e", code] ∧
        (Handler.execSandbox t id "bash" code).1 = .rpcExec "bash" ["-c", code] ∧
        (Handler.execSandbox t id "sh" code).1 = .rpcExec "bash" ["-c", code]) := by
  constructor
  · intro language hmem
    have hnone : languageCommand language code = none := by
      unfold languageCommand
      split <;> simp_all
    simp [Handler.execSandbox, hnone]
  · intro st h hr
    refine ⟨?_, ?_, ?_, ?_, ?_⟩ <;>
      simp [Handler.execSandbox, languageCommand, DockerDriver.Connect, h, hr]

/-- C7 witness: a concrete unknown language is rejected with 400 and no
engine call, and a concrete known language on a running sandbox maps to its
command. -/
theorem C7_exec_language_witness :
    Handler.execSandbox [("c1", { Running := true })] "c1" "ruby" "puts 1" =
      (.httpError 400 "unsupported language: ruby", []) ∧
    (Handler.execSandbox [("c1", { Running := true })] "c1" "python" "print(1)").1 =
      .rpcExec "python3" ["-c", "print(1)"] :=
  ⟨(C7_exec_language [("c1", { Running := true })] "c1" "puts 1").1 "ruby" (by decide),
   ((C7_exec_language [("c1", { Running := true })] "c1" "print(1)").2
      { Running := true } rfl rfl).1⟩

/-- A decoded JSON value as Go's encoding/json yields for `params["code"]`:
JSON numbers become `float64` (embedded as `ℚ` — every exit code and every
comparison the handler performs is exactly representable); other shapes
matter only through not being a number. -/
inductive JSONValue where
  | num (q : ℚ)
  | str (s : String)
  | boolean (b : Bool)
  | null
deriving DecidableEq, Repr

/-- Truncation toward zero of a rational: the defined part of Go's
float-to-int conversion (`int(c)` discards the fractional part). -/
def ratTrunc (q : ℚ) : Int := q.num.tdiv q.den

/-- Go conversion `int(c)` for a float64 `c`: truncation toward zero; when
the result does not fit in int64 the conversion still succeeds but the value
is implementation-defined — gc on amd64 produces math.MinInt64.  The
theorems below depend on the out-of-range case only through a value being
recorded at all. -/
def goInt (q : ℚ) : Int :=
  if -(2 ^ 63) ≤ ratTrunc q ∧ ratTrunc q < 2 ^ 63 then ratTrunc q else -(2 ^ 63)

/-- handler.go execSandbox (292-299), the "exit" notification: when
`params["code"]` type-asserts to float64 the handler records `int(c)` as the
execution's exit code and ends the loop; any other shape (missing key,
string, bool, null) is ignored and the loop continues with no exit code
recorded. -/
def handleExitEvent (code : Option JSONValue) : Option Int :=
  match code with
  | some (.num c) => some (goInt c)
  | _ => none

/-- C6 counterexample: the exit code 2^64 is far outside int64 range, yet the
coordinator does not reject it — it records the implementation-defined
conversion result (math.MinInt64) as the execution's exit_code. -/
theorem C6_counterexample :
    handleExitEvent (some (.num (18446744073709551616 : ℚ))) = some (-(2 ^ 63)) ∧
    (handleExitEvent (some (.num (18446744073709551616 : ℚ)))).isSome = true := by
  constructor <;> decide

/-- C6 amended: an exit code arriving as a JSON number is narrowed by
truncation toward zero (floor for nonnegative, ceiling for nonpositive
values) and recorded as the execution's exit_code whenever the truncation
lies in int64 range; a non-numeric or missing code is ignored.  Out-of-range
values are NOT rejected (see the counterexample). -/
theorem C6_exit_narrowing (q : ℚ) (hlo : -(2 ^ 63) ≤ ratTrunc q)
    (hhi : ratTrunc q < 2 ^ 63) :
    handleExitEvent (some (.num q)) = some (ratTrunc q) ∧
    (0 ≤ q → ratTrunc q = ⌊q⌋) ∧
    (q ≤ 0 → ratTrunc q = ⌈q⌉) ∧
    (∀ s, handleExitEvent (some (.str s)) = none) ∧
    handleExitEvent none = none := by
  refine ⟨?_, fun hq => ?_, fun hq => ?_, fun s => rfl, rfl⟩
  · simp only [handleExitEvent, goInt]
    rw [if_pos ⟨hlo, hhi⟩]
  · rw [ratTrunc, Int.tdiv_eq_ediv (Rat.num_nonneg.mpr hq) (by positivity), Rat.floor_def]
  · have h1 : ratTrunc q = -ratTrunc (-q) := by
      simp [ratTrunc, Rat.neg_num, Rat.neg_den, Int.neg_tdiv]
    have h2 : ratTrunc (-q) = ⌊-q⌋ := by
      rw [ratTrunc, Int.tdiv_eq_ediv (Rat.num_nonneg.mpr (by linarith)) (by positivity),
        Rat.floor_def]
    rw [h1, h2, Int.floor_neg, neg_neg]

/-- C6 amended-claim witness: -3.7 truncates toward zero to -3 (the ceiling,
not the floor) and is recorded. -/
theorem C6_exit_narrowing_witness :
    handleExitEvent (some (.num (Rat.divInt (-37) 10))) = some (-3) :=
  (C6_exit_narrowing (Rat.divInt (-37) 10) (by decide) (by decide)).1.trans (by decide)

/-- bufio's default maximum token size, MaxScanTokenSize = 64 * 1024. -/
def maxScanTokenSize : Nat := 64 * 1024

/-- handler.go execSandbox (216-217): `scanner.Buffer(buf, 1024*1024)`
raises the exec coordinator scanner's cap to 1 MiB. -/
def execScannerMax : Nat := 1024 * 1024

/-- handler.go interactSandbox (451): `bufio.NewScanner(conn)` with no
Buffer call, so the bridge's Agent-to-client scanner keeps the default cap. -/
def interactScannerMax : Nat := maxScanTokenSize

/-- bufio.ScanLines' dropCR: strips one trailing carriage return from a
delivered token. -/
def dropCR (l : List Nat) : List Nat :=
  if l.getLast? = some 13 then l.dropLast else l

/-- Index of the first newline byte, if any. -/
def findNl : List Nat → Option Nat
  | [] => none
  | b :: bs => if b = 10 then some 0 else (findNl bs).map (fun i => i + 1)

/-- Denotation of a bufio.Scanner using ScanLines with maximum token size
`max` over a complete input: the tokens delivered, or `none` when the
scanner stops with ErrTooLong — which happens exactly when a newline is not
found within the first `max` buffered bytes (the buffer grows only up to
`max`), or an unterminated final line longer than `max`; at EOF a full
buffer is still delivered as the final token. -/
def scanTokens (max : Nat) : List Nat → Option (List (List Nat))
  | [] => some []
  | b :: bs =>
      match findNl (b :: bs) with
      | some i =>
          if i < max then
            (scanTokens max ((b :: bs).drop (i + 1))).map
              (fun ts => dropCR ((b :: bs).take i) :: ts)
          else none
      | none => if (b :: bs).length ≤ max then some [dropCR (b :: bs)] else none
  termination_by l => l.length
  decreasing_by simp [List.length_drop]; omega

/-- A newline-free prefix places the first newline at its length. -/
theorem findNl_append_nl (line : List Nat) (h10 : ¬ 10 ∈ line) :
    findNl (line ++ [10]) = some line.length := by
  induction line with
  | nil => simp [findNl]
  | cons b bs ih =>
      simp only [List.mem_cons, not_or] at h10
      have hb : ¬ b = 10 := fun h => h10.1 h.symm
      simp [findNl, hb, ih h10.2]

/-- A newline-terminated line shorter than the cap is delivered intact
(ScanLines strips a trailing CR, hence the last-byte hypothesis). -/
theorem scanTokens_delivers (max : Nat) (line : List Nat) (h10 : ¬ 10 ∈ line)
    (hCR : ¬ line.getLast? = some 13) (hlen : line.length < max) :
    scanTokens max (line ++ [10]) = some [line] := by
  have hnl := findNl_append_nl line h10
  have hCR2 : dropCR line = line := by simp [dropCR, hCR]
  cases line with
  | nil =>
      simp only [List.nil_append]
      simp only [List.length_nil] at hlen
      simp [scanTokens, findNl, hlen, dropCR]
  | cons b bs =>
      simp only [List.cons_append] at hnl ⊢
      simp only [List.length_cons] at hlen
      rw [scanTokens]
      simp only [hnl, List.length_cons]
      rw [if_pos hlen]
      have htake : (b :: (bs ++ [10])).take (bs.length + 1) = b :: bs := by
        simp [List.take_left]
      have hdrop : (b :: (bs ++ [10])).drop (bs.length + 1 + 1) = [] := by
        simp only [List.drop_succ_cons]
        rw [← List.drop_drop, List.drop_left]
        rfl
      rw [htake, hdrop]
      simp [scanTokens, hCR2]

/-- A newline-terminated line at least as long as the cap overflows the
scanner's buffer: ErrTooLong, nothing delivered. -/
theorem scanTokens_tooLong (max : Nat) (line : List Nat) (h10 : ¬ 10 ∈ line)
    (hlen : max ≤ line.length) : scanTokens max (line ++ [10]) = none := by
  have hnl := findNl_append_nl line h10
  cases line with
  | nil =>
      simp only [List.length_nil, Nat.le_zero] at hlen
      subst hlen
      simp [scanTokens, findNl]
  | cons b bs =>
      simp only [List.cons_append] at hnl ⊢
      rw [scanTokens]
      simp only [hnl, List.length_cons]
      rw [if_neg (by simp only [List.length_cons] at hlen; omega)]

/-- C8 amended: both line scanners deliver any newline-terminated line that
is strictly shorter than their cap intact (and free of a trailing CR, which
ScanLines strips): the exec coordinator's cap is 1 MiB, but the interactive
bridge's scanner keeps bufio's default 64 KiB cap and fails with ErrTooLong
on any line of 64 KiB or more. -/
theorem C8_line_scanners (line : List Nat) (h10 : ¬ 10 ∈ line)
    (hCR : ¬ line.getLast? = some 13) :
    (line.length < execScannerMax →
        scanTokens execScannerMax (line ++ [10]) = some [line]) ∧
    (line.length < interactScannerMax →
        scanTokens interactScannerMax (line ++ [10]) = some [line]) ∧
    (interactScannerMax ≤ line.length →
        scanTokens interactScannerMax (line ++ [10]) = none) :=
  ⟨fun h => scanTokens_delivers _ _ h10 hCR h,
   fun h => scanTokens_delivers _ _ h10 hCR h,
   fun h => scanTokens_tooLong _ _ h10 h⟩

/-- C8 counterexample: a newline-terminated 64 KiB line — well within the
claimed 1 MiB bound — is not delivered by the interactive bridge's scanner:
it fails with ErrTooLong. -/
theorem C8_counterexample :
    (List.replicate 65536 97).length ≤ 1024 * 1024 ∧
    scanTokens interactScannerMax (List.replicate 65536 97 ++ [10]) = none :=
  ⟨by rw [List.length_replicate]; omega,
   scanTokens_tooLong _ _
     (by rw [List.mem_replicate]; omega)
     (by rw [List.length_replicate]; decide)⟩

/-- C8 amended-claim witness: a short line is delivered intact by both
scanners. -/
theorem C8_line_scanners_witness :
    scanTokens execScannerMax ([104, 105] ++ [10]) = some [[104, 105]] ∧
    scanTokens interactScannerMax ([104, 105] ++ [10]) = some [[104, 105]] :=
  ⟨(C8_line_scanners [104, 105] (by decide) (by decide)).1
      (by norm_num [execScannerMax]),
   (C8_line_scanners [104, 105] (by decide) (by decide)).2.1
      (by norm_num [interactScannerMax, maxScanTokenSize])⟩

/-- One multiplexed frame on the backend hijack stream: stream-type byte
plus payload. -/
structure Frame where
  streamType : Nat
  payload : List Nat
deriving DecidableEq, Repr

/-- docker.go demux (438): the payload length parsed from header bytes 4..7,
`int(header[4])<<24 | int(header[5])<<16 | int(header[6])<<8 | int(header[7])`.
(The Go `payloadSize < 0` guard is dead for byte inputs on 64-bit int.) -/
def payloadSize (b4 b5 b6 b7 : Nat) : Nat :=
  ((b4 <<< 24 ||| b5 <<< 16) ||| b6 <<< 8) ||| b7

/-- docker.go DockerStream.demux (409-460) over a complete hijack stream:
read 8 header bytes (a short read returns, closing the consumer pipe ⇒
EOF); parse the big-endian length; then copy the payload — stream type 1 to
the consumer pipe, type 2 to stderr, anything else discarded.  A short
payload copy on the stdout arm ends the loop with the bytes already copied
kept in the output; on the other arms the copy error is ignored and the next
header read hits EOF — in both cases `List.take`/`List.drop` of the
remaining bytes model the behavior exactly.  The result is the byte
sequence the consumer-facing reader yields before EOF. -/
def demux : List Nat → List Nat
  | b0 :: _b1 :: _b2 :: _b3 :: b4 :: b5 :: b6 :: b7 :: rest =>
      if b0 = 1 then
        rest.take (payloadSize b4 b5 b6 b7) ++ demux (rest.drop (payloadSize b4 b5 b6 b7))
      else demux (rest.drop (payloadSize b4 b5 b6 b7))
  | _ => []
  termination_by l => l.length
  decreasing_by all_goals (simp [List.length_drop]; omega)

/-- The 8-byte header (stream type, three reserved zeros, big-endian length)
followed by the payload. -/
def encodeFrame (f : Frame) : List Nat :=
  f.streamType :: 0 :: 0 :: 0 ::
    (f.payload.length / 2 ^ 24 % 2 ^ 8) :: (f.payload.length / 2 ^ 16 % 2 ^ 8) ::
    (f.payload.length / 2 ^ 8 % 2 ^ 8) :: (f.payload.length % 2 ^ 8) :: f.payload

/-- A well-formed multiplexed stream: frames in sequence. -/
def encodeFrames (fs : List Frame) : List Nat :=
  (fs.map encodeFrame).flatten

/-- The stdout payload bytes of a frame sequence, in arrival order. -/
def stdoutBytes (fs : List Frame) : List Nat :=
  ((fs.filter (fun f => f.streamType = 1)).map (fun f => f.payload)).flatten

/-- Bitwise or of a left-shifted value with a small value is their sum. -/
theorem lor_shiftLeft_eq_add (a b k : Nat) (hb : b < 2 ^ k) :
    (a <<< k) ||| b = a * 2 ^ k + b := by
  apply Nat.eq_of_testBit_eq
  intro i
  rw [Nat.testBit_lor, Nat.testBit_shiftLeft, Nat.mul_comm,
    Nat.testBit_mul_pow_two_add a hb]
  by_cases h : i < k
  · simp [h, Nat.not_le.mpr h]
  · have hk : k ≤ i := Nat.not_lt.mp h
    have hb2 : b < 2 ^ i := lt_of_lt_of_le hb (Nat.pow_le_pow_right (by norm_num) hk)
    simp [h, hk, Nat.testBit_lt_two_pow hb2]

/-- The header length bytes of `encodeFrame` parse back to the payload
length for payloads below 2^32 bytes. -/
theorem payloadSize_encode (n : Nat) (h : n < 2 ^ 32) :
    payloadSize (n / 2 ^ 24 % 2 ^ 8) (n / 2 ^ 16 % 2 ^ 8) (n / 2 ^ 8 % 2 ^ 8)
      (n % 2 ^ 8) = n := by
  rw [payloadSize, Nat.lor_assoc, Nat.lor_assoc]
  rw [lor_shiftLeft_eq_add _ _ 8 (by omega)]
  have h16 : (n / 2 ^ 8 % 2 ^ 8) * 2 ^ 8 + n % 2 ^ 8 = n % 2 ^ 16 := by omega
  rw [h16, lor_shiftLeft_eq_add _ _ 16 (by omega)]
  have h24 : (n / 2 ^ 16 % 2 ^ 8) * 2 ^ 16 + n % 2 ^ 16 = n % 2 ^ 24 := by omega
  rw [h24, lor_shiftLeft_eq_add _ _ 24 (by omega)]
  omega

/-- A stream shorter than one header yields nothing: the header read fails
and demux returns, closing the pipe. -/
theorem demux_short (l : List Nat) (h : l.length < 8) : demux l = [] := by
  rcases l with _ | ⟨a, _ | ⟨b, _ | ⟨c, _ | ⟨d, _ | ⟨e, _ | ⟨f, _ | ⟨g, _ | ⟨x, rest⟩⟩⟩⟩⟩⟩⟩⟩ <;>
    first
      | (exfalso; simp only [List.length_cons] at h; omega)
      | simp [demux]

/-- C1: over any well-formed 8-byte-framed stream (payload lengths below
2^32) followed by a short trailing read of fewer than 8 header bytes, the
demuxer's consumer-facing reader yields exactly the concatenation, in
arrival order, of the payloads of stream-type-1 (stdout) frames; bytes of
stderr (type 2) or other frames never appear, and the short header read
ends the output. -/
theorem C1_demux (fs : List Frame) (hlen : ∀ f ∈ fs, f.payload.length < 2 ^ 32)
    (junk : List Nat) (hjunk : junk.length < 8) :
    demux (encodeFrames fs ++ junk) = stdoutBytes fs := by
  induction fs with
  | nil =>
      simp only [encodeFrames, List.map_nil, List.flatten_nil, List.nil_append]
      simpa [stdoutBytes] using demux_short junk hjunk
  | cons f fs ih =>
      have hf : f.payload.length < 2 ^ 32 := hlen f (List.mem_cons_self f fs)
      have hrest : ∀ g ∈ fs, g.payload.length < 2 ^ 32 :=
        fun g hg => hlen g (List.mem_cons_of_mem f hg)
      have hstream : encodeFrames (f :: fs) ++ junk =
          encodeFrame f ++ (encodeFrames fs ++ junk) := by
        simp [encodeFrames]
      rw [hstream, encodeFrame]
      simp only [List.cons_append]
      simp only [demux]
      rw [payloadSize_encode f.payload.length hf]
      rw [List.take_left, List.drop_left]
      by_cases ht : f.streamType = 1
      · rw [if_pos ht, ih hrest]
        simp [stdoutBytes, ht]
      · rw [if_neg ht, ih hrest]
        simp [stdoutBytes, ht]

/-- C1 witness: a concrete stream of one stdout frame, one stderr frame and
another stdout frame, followed by a 2-byte truncated header, demuxes to the
two stdout payloads in order, with no stderr byte. -/
theorem C1_demux_witness :
    demux (encodeFrames [⟨1, [104, 105]⟩, ⟨2, [120, 121]⟩, ⟨1, [33]⟩] ++ [1, 0]) =
      [104, 105, 33] :=
  (C1_demux [⟨1, [104, 105]⟩, ⟨2, [120, 121]⟩, ⟨1, [33]⟩]
      (by decide) [1, 0] (by decide)).trans
    (by simp [stdoutBytes])

/-- Value of a character in the standard base64 alphabet
(A-Z, a-z, 0-9, '+', '/'); `none` for anything else, including '='. -/
def base64Index (c : Char) : Option Nat :=
  if 'A' ≤ c ∧ c ≤ 'Z' then some (c.toNat - 'A'.toNat)
  else if 'a' ≤ c ∧ c ≤ 'z' then some (c.toNat - 'a'.toNat + 26)
  else if '0' ≤ c ∧ c ≤ '9' then some (c.toNat - '0'.toNat + 52)
  else if c = '+' then some 62
  else if c = '/' then some 63
  else none

/-- Go encoding/base64 StdEncoding decoding over a character sequence
already stripped of newlines: 4-character quanta; '=' padding is accepted
only as "xx==" or "xxx=" ending the input; a leftover of 1-3 characters or
any character outside the alphabet is a CorruptInputError (`none`).
Standard (non-Strict) mode does not check the unused trailing bits. -/
def decodeBase64Chars : List Char → Option (List Nat)
  | [] => some []
  | a :: b :: c :: d :: rest =>
      match base64Index a, base64Index b with
      | some va, some vb =>
          if c = '=' then
            if d = '=' ∧ rest = [] then some [va * 4 + vb / 16]
            else none
          else
            match base64Index c with
            | some vc =>
                if d = '=' then
                  if rest = [] then some [(va * 4 + vb / 16), (vb % 16 * 16 + vc / 4)]
                  else none
                else
                  match base64Index d with
                  | some vd =>
                      (decodeBase64Chars rest).map
                        (fun bs => (va * 4 + vb / 16) :: (vb % 16 * 16 + vc / 4) ::
                          (vc % 4 * 64 + vd) :: bs)
                  | none => none
            | none => none
      | _, _ => none
  | _ => none

/-- `base64.StdEncoding.DecodeString`: the decoder skips CR and LF, then
decodes 4-character quanta; `none` models a CorruptInputError. -/
def decodeBase64 (s : String) : Option (List Nat) :=
  decodeBase64Chars (s.data.filter (fun ch => ¬ (ch = '\n' ∨ ch = '\r')))

/-- filepath.IsAbs on Linux: a non-empty path starting with '/'. -/
def isAbs (path : String) : Bool :=
  match path.data with
  | c :: _ => c = '/'
  | [] => false

/-- filepath.Join of the working directory and a relative path (for the
already-clean paths handled here Join(a, b) = a + "/" + b; Join also cleans
the result, which is the identity on such paths). -/
def joinPath (workDir path : String) : String := workDir ++ "/" ++ path

/-- docker.go Create (218-222): target path of a context injection. -/
def injectionTarget (workDir : String) (f : FileInjection) : String :=
  if isAbs f.Path then f.Path else joinPath workDir f.Path

/-- docker.go Create, the context-injection loop (210-229), parametrized by
the engine's copy outcome (`putFileOk target data = true` iff `PutFile`
succeeds): a file whose content_base64 fails to decode is logged and
SKIPPED (`continue`); a decoded file is written via PutFile; a PutFile
failure stops/removes the container (teardown) and fails the create with an
error naming the path.  `written` accumulates the (path, bytes) pairs
already injected. -/
def applyInjections (putFileOk : String → List Nat → Bool) (workDir : String) :
    List FileInjection → List (String × List Nat) →
      Except String (List (String × List Nat))
  | [], written => .ok written
  | f :: rest, written =>
      match decodeBase64 f.ContentBase64 with
      | none => applyInjections putFileOk workDir rest written
      | some data =>
          if putFileOk (injectionTarget workDir f) data then
            applyInjections putFileOk workDir rest
              (written ++ [(injectionTarget workDir f, data)])
          else .error f.Path

/-- The injections of a context whose content decodes, with their resolved
target paths and payloads. -/
def decodedInjections (workDir : String) (ctx : List FileInjection) :
    List (String × List Nat) :=
  ctx.filterMap (fun f => (decodeBase64 f.ContentBase64).map
    (fun data => (injectionTarget workDir f, data)))

/-- When every decoded injection's PutFile succeeds, the loop succeeds and
writes exactly the decoded injections, after whatever was already written. -/
theorem applyInjections_ok (putFileOk : String → List Nat → Bool) (workDir : String)
    (ctx : List FileInjection)
    (hput : ∀ p ∈ decodedInjections workDir ctx, putFileOk p.1 p.2 = true) :
    ∀ acc, applyInjections putFileOk workDir ctx acc =
      .ok (acc ++ decodedInjections workDir ctx) := by
  induction ctx with
  | nil => intro acc; simp [applyInjections, decodedInjections]
  | cons f rest ih =>
      intro acc
      cases hd : decodeBase64 f.ContentBase64 with
      | none =>
          have hset : decodedInjections workDir (f :: rest) =
              decodedInjections workDir rest := by
            simp [decodedInjections, List.filterMap_cons, hd]
          rw [hset] at hput ⊢
          simp only [applyInjections, hd]
          exact ih hput acc
      | some data =>
          have hset : decodedInjections workDir (f :: rest) =
              (injectionTarget workDir f, data) :: decodedInjections workDir rest := by
            simp [decodedInjections, List.filterMap_cons, hd]
          rw [hset] at hput ⊢
          have hf := hput (injectionTarget workDir f, data) (List.mem_cons_self _ _)
          simp only [applyInjections, hd, hf, if_true]
          rw [ih (fun p hp => hput p (List.mem_cons_of_mem _ hp)) (acc ++ [(injectionTarget workDir f, data)])]
          simp

/-- Whatever the PutFile outcomes, a successful create has written exactly
the decoded injections. -/
theorem applyInjections_ok_inv (putFileOk : String → List Nat → Bool)
    (workDir : String) (ctx : List FileInjection) :
    ∀ acc w, applyInjections putFileOk workDir ctx acc = .ok w →
      w = acc ++ decodedInjections workDir ctx := by
  induction ctx with
  | nil =>
      intro acc w h
      simp only [applyInjections] at h
      cases h
      simp [decodedInjections]
  | cons f rest ih =>
      intro acc w h
      cases hd : decodeBase64 f.ContentBase64 with
      | none =>
          simp only [applyInjections, hd] at h
          rw [ih acc w h]
          simp [decodedInjections, List.filterMap_cons, hd]
      | some data =>
          simp only [applyInjections, hd] at h
          by_cases hput : putFileOk (injectionTarget workDir f) data
          · rw [if_pos hput] at h
            rw [ih _ w h]
            simp [decodedInjections, List.filterMap_cons, hd]
          · rw [if_neg hput] at h
            cases h

/-- If some decoded injection's PutFile fails, the create fails (and the
container is torn down). -/
theorem applyInjections_fails (putFileOk : String → List Nat → Bool)
    (workDir : String) (ctx : List FileInjection)
    (hbad : ∃ p ∈ decodedInjections workDir ctx, putFileOk p.1 p.2 = false) :
    ∀ acc, ∃ path, applyInjections putFileOk workDir ctx acc = .error path := by
  induction ctx with
  | nil => simp [decodedInjections] at hbad
  | cons f rest ih =>
      intro acc
      cases hd : decodeBase64 f.ContentBase64 with
      | none =>
          have hset : decodedInjections workDir (f :: rest) =
              decodedInjections workDir rest := by
            simp [decodedInjections, List.filterMap_cons, hd]
          rw [hset] at hbad
          simp only [applyInjections, hd]
          exact ih hbad acc
      | some data =>
          by_cases hput : putFileOk (injectionTarget workDir f) data
          · have hset : decodedInjections workDir (f :: rest) =
                (injectionTarget workDir f, data) :: decodedInjections workDir rest := by
              simp [decodedInjections, List.filterMap_cons, hd]
            rw [hset] at hbad
            obtain ⟨p, hp, hpf⟩ := hbad
            rcases List.mem_cons.mp hp with rfl | hp2
            · rw [hput] at hpf; cases hpf
            · simp only [applyInjections, hd, hput, if_true]
              exact ih ⟨p, hp2, hpf⟩ _
          · exact ⟨f.Path, by simp [applyInjections, hd, hput]⟩

/-- C5 counterexample: a create request whose context holds a single
injection with invalid base64 ("!") succeeds — no error, no teardown — and
writes nothing, refuting both "any failing injection tears the container
down and fails the create" and "on success every injected file has been
written". -/
theorem C5_counterexample :
    decodeBase64 "!" = none ∧
    applyInjections (fun _ _ => true) "/workspace" [⟨"/a.txt", "!"⟩] [] = .ok [] :=
  ⟨rfl, rfl⟩

/-- C5 amended: an injection whose content fails base64 decoding is logged
and skipped — Create neither fails nor tears down for it; an injection
whose PutFile copy fails tears the container down and fails the create; on
success exactly the injections that decoded have been written (in order)
before Create returns. -/
theorem C5_create_injections (putFileOk : String → List Nat → Bool)
    (workDir : String) (ctx : List FileInjection) :
    ((∀ p ∈ decodedInjections workDir ctx, putFileOk p.1 p.2 = true) →
        applyInjections putFileOk workDir ctx [] = .ok (decodedInjections workDir ctx)) ∧
    (∀ w, applyInjections putFileOk workDir ctx [] = .ok w →
        w = decodedInjections workDir ctx) ∧
    ((∃ p ∈ decodedInjections workDir ctx, putFileOk p.1 p.2 = false) →
        ∃ path, applyInjections putFileOk workDir ctx [] = .error path) :=
  ⟨fun hput => by simpa using applyInjections_ok putFileOk workDir ctx hput [],
   fun w h => by simpa using applyInjections_ok_inv putFileOk workDir ctx [] w h,
   fun hbad => applyInjections_fails putFileOk workDir ctx hbad []⟩

/-- C5 amended-claim witness: a context of one valid ("aGk=" = "hi") and one
invalid ("!") injection, with PutFile succeeding, writes exactly the decoded
file; with PutFile failing, the create fails. -/
theorem C5_create_injections_witness :
    applyInjections (fun _ _ => true) "/workspace"
        [⟨"/a.txt", "aGk="⟩, ⟨"/b.txt", "!"⟩] [] = .ok [("/a.txt", [104, 105])] ∧
    applyInjections (fun _ _ => false) "/workspace"
        [⟨"/a.txt", "aGk="⟩] [] = .error "/a.txt" :=
  ⟨((C5_create_injections (fun _ _ => true) "/workspace"
        [⟨"/a.txt", "aGk="⟩, ⟨"/b.txt", "!"⟩]).1 (by decide)).trans
      (congrArg Except.ok (by decide)),
   by
    obtain ⟨path, hpath⟩ :=
      (C5_create_injections (fun _ _ => false) "/workspace" [⟨"/a.txt", "aGk="⟩]).2.2
        ⟨("/a.txt", [104, 105]), by decide, rfl⟩
    rw [hpath]
    have : path = "/a.txt" := by
      have h2 := hpath
      rw [show applyInjections (fun _ _ => false) "/workspace"
          [⟨"/a.txt", "aGk="⟩] [] = .error "/a.txt" from rfl] at h2
      cases h2
      rfl
    rw [this]⟩

/-- Lifecycle states of internal/driver `SandboxState`. -/
inductive SandboxState where
  | creating
  | ready
  | stopping
  | stopped
  | errorState
deriving DecidableEq, Repr

/-- A container as the engine's `ContainerList` reports it: the fields
docker.go List reads, plus its labels (to record that no label filter is
applied to the listing). -/
structure ContainerSummary where
  ID : String
  State : String
  Labels : List (String × String) := []
deriving DecidableEq, Repr

/-- The fields of internal/driver `SandboxInfo` that docker.go List fills. -/
structure SandboxInfo where
  ID : String
  State : SandboxState
  DriverType : String
deriving DecidableEq, Repr

/-- docker.go List (355-379): `ContainerList` with `All: true` and no label
filter, mapping each container to a SandboxInfo (ready iff the engine state
string is "running", stopped otherwise); the `states` argument is unused. -/
def DockerDriver.List (containers : List ContainerSummary)
    (states : Option (List SandboxState)) : List SandboxInfo :=
  containers.map (fun c =>
    { ID := c.ID,
      State := if c.State = "running" then .ready else .stopped,
      DriverType := "docker" })

/-- C10: List returns one entry per container known to the engine (running
or not, managed label or not, in order), and the result does not depend on
the states filter argument. -/
theorem C10_list (containers : List ContainerSummary)
    (s1 s2 : Option (List SandboxState)) :
    DockerDriver.List containers s1 = DockerDriver.List containers s2 ∧
    (DockerDriver.List containers s1).map (fun e => e.ID) =
      containers.map (fun c => c.ID) ∧
    (DockerDriver.List containers s1).length = containers.length := by
  refine ⟨rfl, ?_, by simp [DockerDriver.List]⟩
  simp [DockerDriver.List]

end Boxed
